import Mathlib

/-!
Formal model of the conversation engine of a chat bot bridging a chat
protocol to an LLM chat-completion backend.  Pure fragments of the source
(command parsing, tool-call decoding, response interpretation, the
backfill scan) are embedded as executable Lean functions translated from
the Rust source.  The stateful room-message handler is embedded as a
function from an explicit environment (the outcomes of all external calls)
and an explicit store to the resulting store, result value and trace of
externally visible effects.
-/

namespace Bot

/-- JSON values, as produced by parsing the serialized arguments text of a
tool call (serde_json Value).  Object field lists stand for JSON objects
whose keys are distinct after duplicate resolution by the text parser. -/
inductive Json where
  | object (fields : List (String × Json))
  | array (items : List Json)
  | string (s : String)
  | number (n : Int)
  | boolean (b : Bool)
  | null

/-- First binding of a key in a JSON object field list. -/
def lookupPair : List (String × Json) → String → Option Json
  | [], _ => none
  | (k, v) :: rest, key => if k = key then some v else lookupPair rest key

/-- Field access on a JSON value: some value for an object that binds the
key, none otherwise. -/
def Json.lookupField : Json → String → Option Json
  | .object fields, key => lookupPair fields key
  | _, _ => none

/-- The closed tool set of src/openai/tools.rs: enum Tool, one variant
fetch_url with a single string parameter url. -/
inductive Tool where
  | fetchUrl (url : String)
deriving DecidableEq

/-- The function part of a backend-issued tool-call record.  The source
stores arguments as serialized text and parses it with serde_json
from_str; that text-level parse is abstracted here as an Option Json:
some v when the text parses to the value v, none when it is malformed. -/
structure FunctionCall where
  name : String
  argumentsText : Option Json

/-- A backend-issued tool-call record: {id, type, function}. -/
structure ToolCall where
  id : String
  kind : String
  function : FunctionCall

/-- Serde decoding of the re-tagged value {name, arguments} into the Tool
enum (tag "name", content "arguments").  The single variant fetch_url
requires its content to carry a string field url; unknown tag names and
content of the wrong shape are decoding errors.  Unknown extra fields are
ignored, as by default serde behavior. -/
def decodeTool (name : String) (args : Json) : Except String Tool :=
  if name = "fetch_url" then
    match args.lookupField "url" with
    | some (Json.string u) => Except.ok (Tool.fetchUrl u)
    | some _ => Except.error "invalid type for field url"
    | none => Except.error "missing field url"
  else Except.error "unknown variant"

/-- TryFrom of a ToolCall reference into Tool (src/openai/tools.rs): parse
the arguments text as a generic value, re-tag it under the declared name,
decode against the Tool enum. -/
def toolTryFrom (tc : ToolCall) : Except String Tool :=
  match tc.function.argumentsText with
  | none => Except.error "invalid arguments text"
  | some v => decodeTool tc.function.name v

/-- One image-content entry of a message. -/
structure OpenAIImageContent where
  kind : String
  imageUrl : String

/-- Message content: untagged union of plain text and an image list. -/
inductive MessageContent where
  | text (body : List Char)
  | images (imgs : List OpenAIImageContent)

/-- A chat turn as exchanged with the completion backend. -/
structure OpenAIMessage where
  role : String
  content : Option MessageContent
  tool_calls : List ToolCall

/-- One choice of a completion response. -/
structure OpenAIChoice where
  index : Nat
  message : OpenAIMessage

/-- A completion-backend response body. -/
structure OpenAIResponse where
  object : String
  created : Nat
  model : String
  choices : List OpenAIChoice

/-- An action derived from a completion response message. -/
inductive AssistantAction where
  | reply (body : List Char)
  | toolCall (t : Tool)

/-- Error-propagating map over a list, mirroring the source loop that
converts each tool-call record and aborts at the first failure. -/
def mapExcept (f : α → Except ε β) : List α → Except ε (List β)
  | [] => Except.ok []
  | a :: as =>
    match f a, mapExcept f as with
    | Except.error e, _ => Except.error e
    | Except.ok _, Except.error e => Except.error e
    | Except.ok b, Except.ok bs => Except.ok (b :: bs)

/-- into_actions (src/openai/conversation.rs): a text content pushes one
Reply action, any other content shape is the error "unknown type"; then
every tool-call record is converted, the first conversion failure
propagating, and each successful conversion appends one ToolCall action. -/
def intoActions (m : OpenAIMessage) : Except String (List AssistantAction) :=
  match m.content with
  | some (MessageContent.text body) =>
    match mapExcept toolTryFrom m.tool_calls with
    | Except.error e => Except.error e
    | Except.ok ts => Except.ok (AssistantAction.reply body :: ts.map AssistantAction.toolCall)
  | _ => Except.error "unknown type"

/-- The response-interpretation tail of send_prompt
(src/openai/conversation.rs): the source calls choices.first().unwrap(),
modeled as the outer Option where none marks the panic of unwrap on an
empty choices list; otherwise into_actions of the first choice, its error
propagating, then the first action: a Reply returns its text and anything
else falls through to the error "Unable to parse message". -/
def interpretResponse (resp : OpenAIResponse) : Option (Except String (List Char)) :=
  match resp.choices.head? with
  | none => none
  | some choice =>
    some (match intoActions choice.message with
      | Except.error e => Except.error e
      | Except.ok actions =>
        match actions.head? with
        | some (AssistantAction.reply m) => Except.ok m
        | _ => Except.error "Unable to parse message")

/-- ASCII whitespace predicate used by trimming, covering the whitespace
characters that occur in the modeled inputs. -/
def isWs (c : Char) : Bool := c = ' ' || c = '\t' || c = '\n' || c = '\r'

/-- str::trim of the source, on an explicit character list. -/
def trimChars (s : List Char) : List Char :=
  ((s.dropWhile isWs).reverse.dropWhile isWs).reverse

/-- splitn(2, sep): the characters before the first separator, and the
remainder after it when a separator occurs. -/
def splitFirst (sep : Char) : List Char → List Char × Option (List Char)
  | [] => ([], none)
  | c :: rest =>
    if c = sep then ([], some rest)
    else
      match splitFirst sep rest with
      | (k, r) => (c :: k, r)

/-- The command variants of src/command.rs. -/
inductive Command where
  | reset
  | help
  | version
  | unknown (kw : List Char)
deriving DecidableEq

/-- Command::parse (src/command.rs): trim the input; text not starting
with the bang prefix is no command; otherwise the keyword is the first
part of splitn(2, space) applied to the text after the prefix, matched
against the three known keywords, anything else giving Unknown. -/
def Command.parse (input : List Char) : Option Command :=
  match trimChars input with
  | [] => none
  | c :: rest =>
    if c = '!' then
      match splitFirst ' ' rest with
      | (keyword, _) =>
        some (if keyword = "reset".toList then Command.reset
          else if keyword = "help".toList then Command.help
          else if keyword = "version".toList then Command.version
          else Command.unknown keyword)
    else none

/-- Result of classifying one historical raw event during backfill. -/
inductive Processed where
  | cont (id : String) (msg : OpenAIMessage)
  | stop

/-- Command::into_processed: Reset maps to the backfill stop signal, every
other command to nothing. -/
def Command.intoProcessed : Command → Option Processed
  | Command.reset => some Processed.stop
  | _ => none

/-- A decoded room message event: sender, event id and body text. -/
structure MsgEvent where
  sender : String
  eventId : String
  body : List Char
deriving DecidableEq

/-- create_message (src/openai/conversation.rs): the role is assistant
when the sender is the bot and user otherwise; the body becomes the text
content, with no tool calls. -/
def createMessage (botId : String) (ev : MsgEvent) : OpenAIMessage :=
  { role := if ev.sender = botId then "assistant" else "user"
    content := some (MessageContent.text ev.body)
    tool_calls := [] }

/-- One raw timeline item of the backward message stream, classified by
what the source observes of it: a stream item that is itself an error, an
event whose type tag cannot be extracted, a membership event (with its
decodability and whether the change is Left), a plain or encrypted message
event (with its decodability, decryptability and decoded content), or an
event of any other type. -/
inductive RawEvent where
  | streamError
  | malformed
  | member (isLeft : Bool)
  | memberUndecodable
  | message (ev : MsgEvent)
  | messageUndecodable
  | encrypted (ev : MsgEvent)
  | encryptedFailing
  | otherType
deriving DecidableEq

/-- The inner handle_event of process_raw_event: a body parsing as a
command yields the processed signal of that command, anything else yields
Continue with the event id and the created message. -/
def handleEvent (botId : String) (ev : MsgEvent) : Option Processed :=
  match Command.parse ev.body with
  | some c => c.intoProcessed
  | none => some (Processed.cont ev.eventId (createMessage botId ev))

/-- process_raw_event (src/openai/conversation.rs), with the stream-item
error of the surrounding closure folded in: a failed type-tag extraction
is skipped with a warning (ok none); a membership event decodes and yields
Stop exactly when the change is Left, otherwise nothing; message events,
plain or decrypted, go through handle_event; failed typed decoding or
decryption propagates as an error; unknown types yield nothing. -/
def processRawEvent (botId : String) : RawEvent → Except String (Option Processed)
  | RawEvent.streamError => Except.error "stream item error"
  | RawEvent.malformed => Except.ok none
  | RawEvent.member isLeft =>
      Except.ok (if isLeft then some Processed.stop else none)
  | RawEvent.memberUndecodable => Except.error "member decode error"
  | RawEvent.message ev => Except.ok (handleEvent botId ev)
  | RawEvent.messageUndecodable => Except.error "message decode error"
  | RawEvent.encrypted ev => Except.ok (handleEvent botId ev)
  | RawEvent.encryptedFailing => Except.error "decryption error"
  | RawEvent.otherType => Except.ok none

/-- The stream pipeline of backfill before the final reversal: ok-none
results are filtered out, Continue results are collected in discovery
order, and the scan ends at the first Stop or error result. -/
def backfillScan (botId : String) : List RawEvent → List (String × OpenAIMessage)
  | [] => []
  | e :: rest =>
    match processRawEvent botId e with
    | Except.ok none => backfillScan botId rest
    | Except.ok (some (Processed.cont id m)) => (id, m) :: backfillScan botId rest
    | Except.ok (some Processed.stop) => []
    | Except.error _ => []

/-- backfill (src/openai/conversation.rs), pure core: the scanned pairs,
discovered newest first, reversed to oldest first.  The source then stores
the ids through ConversationStore set and prepends the messages to the
materialized history. -/
def backfillPairs (botId : String) (history : List RawEvent) :
    List (String × OpenAIMessage) :=
  (backfillScan botId history).reverse

/-- All Continue classifications of a history, in discovery (newest first)
order, ignoring the termination rule.  Used to state ordering facts about
the scan. -/
def continuePairs (botId : String) (history : List RawEvent) :
    List (String × OpenAIMessage) :=
  history.filterMap (fun e =>
    match processRawEvent botId e with
    | Except.ok (some (Processed.cont id m)) => some (id, m)
    | _ => none)

/-- An event at which the scan pipeline terminates: its processing yields
Stop or an error. -/
def isBoundary (botId : String) (e : RawEvent) : Bool :=
  match processRawEvent botId e with
  | Except.ok (some Processed.stop) => true
  | Except.error _ => true
  | _ => false

/-- An event whose processing involves a failed deserialization or
decryption of the event payload. -/
def failsToDecode : RawEvent → Bool
  | RawEvent.malformed => true
  | RawEvent.memberUndecodable => true
  | RawEvent.messageUndecodable => true
  | RawEvent.encryptedFailing => true
  | _ => false

/-- A conversation identity: the (user id, room id) pair keying the
store.  The handler always keys by the bot user id and the room id. -/
abbrev Identity := String × String

/-- The ConversationStore content: the nested user-to-room-to-ids hash
maps of the source flattened to an association list keyed by the pair. -/
abbrev Store := List (Identity × List String)

/-- Lookup of the anchor list of an identity; none when the identity is
unseen. -/
def storeGet : Store → Identity → Option (List String)
  | [], _ => none
  | (k, v) :: rest, key => if k = key then some v else storeGet rest key

/-- Entry update of the store: the existing list of the identity is
replaced by f applied to it, a missing entry being created from f applied
to the empty list, mirroring the entry().or_default() idiom. -/
def storeUpdate : Store → Identity → (List String → List String) → Store
  | [], key, f => [(key, f [])]
  | (k, v) :: rest, key, f =>
    if k = key then (k, f v) :: rest else (k, v) :: storeUpdate rest key f

/-- ConversationStore::clear: truncate the anchor list of the identity to
empty, creating the entry when absent. -/
def storeClear (s : Store) (key : Identity) : Store :=
  storeUpdate s key (fun _ => [])

/-- ConversationStore::insert_events: extend the anchor list of the
identity with the given ids. -/
def storeInsertEvents (s : Store) (key : Identity) (ids : List String) : Store :=
  storeUpdate s key (fun v => v ++ ids)

/-- ConversationStore::set: wholesale replacement of the anchor list of
the identity. -/
def storeSetList (s : Store) (key : Identity) (ids : List String) : Store :=
  storeUpdate s key (fun _ => ids)

/-- The read part of ConversationStore::get_conversation: return the
current anchor list of the identity, lazily inserting an empty list for an
unseen identity, together with the store after that lazy insertion. -/
def getOrCreate (s : Store) (key : Identity) : Store × List String :=
  match storeGet s key with
  | some v => (s, v)
  | none => (storeUpdate s key (fun _ => []), [])

/-- A message event as delivered to the live handler, with its optional
mentions list (the user ids mentioned by the event). -/
structure MsgEventIn where
  sender : String
  eventId : String
  body : List Char
  mentions : Option (List String)

/-- Outcomes of all external calls the handler performs, fixed up front so
the handler itself is a pure function.  A false or none outcome stands for
the failure of the corresponding call; storedEvents maps a stored event id
to its fetched and decoded message event, a missing id standing for a
fetch or decode failure inside get_conversation; history is the backward
raw message stream of the room; backendResponse is the parsed completion
response, none standing for a transport or body-parse failure; sendResult
is the event id of the sent reply. -/
structure Env where
  botId : String
  roomId : String
  roomFound : Bool
  isDirect : Bool
  deviceFound : Bool
  receiptOk : Bool
  typingOk : Bool
  typingStopOk : Bool
  storedEvents : List (String × MsgEvent)
  history : List RawEvent
  backendResponse : Option OpenAIResponse
  sendResult : Option String

/-- Externally visible effects of one handler invocation, in order. -/
inductive Effect where
  | receipt
  | storeCleared
  | typing (flag : Bool)
  | storeSet (ids : List String)
  | backendCall
  | sentMessage (responseId : String)
  | storeInsert (ids : List String)
deriving DecidableEq

/-- Final result value of one handler invocation. -/
inductive ExecResult where
  | ignoredOwnMessage
  | ignoredNotMentioned
  | commandHandled
  | replied (body : List Char)
  | failed (msg : String)
  | panicked
deriving DecidableEq

/-- Output of one handler invocation: final store, result, effect trace. -/
structure HandlerOut where
  store : Store
  result : ExecResult
  trace : List Effect

/-- The group-chat guard of on_room_message (src/main.rs), as written in
the source: ignore only when the room is not direct AND the event carries
a mentions list AND that list does not contain the bot; an event with no
mentions list at all fails the let chain and is not ignored. -/
def mentionGuard (env : Env) (ev : MsgEventIn) : Bool :=
  !env.isDirect &&
    (match ev.mentions with
      | some ms => !(ms.contains env.botId)
      | none => false)

/-- First lookup of an event id among the fetched stored events. -/
def lookupEvent : List (String × MsgEvent) → String → Option MsgEvent
  | [], _ => none
  | (k, v) :: rest, key => if k = key then some v else lookupEvent rest key

/-- Failure-propagating map over Option, mirroring the try_collect of the
buffered fetch stream in get_conversation. -/
def mapOption (f : α → Option β) : List α → Option (List β)
  | [] => some []
  | a :: as =>
    (f a).bind (fun b => (mapOption f as).map (fun bs => b :: bs))

/-- Materialization of the stored event ids into message events; none
when any single fetch or decode fails. -/
def fetchStored (env : Env) (ids : List String) : Option (List MsgEvent) :=
  mapOption (lookupEvent env.storedEvents) ids

/-- The tail of a turn after backfill has run (or been skipped): the
completion-backend call of send_prompt, the reply send, insert_dialog and
the final typing-off signal.  The user turn appended by send_prompt and
the serialized request body only feed the external backend call, whose
response is given by the environment. -/
def turnWithBackend (env : Env) (store2 : Store) (pre : List Effect)
    (ev : MsgEventIn) : HandlerOut :=
  match env.backendResponse with
  | none => ⟨store2, ExecResult.failed "backend transport", pre ++ [Effect.backendCall]⟩
  | some resp =>
    match interpretResponse resp with
    | none => ⟨store2, ExecResult.panicked, pre ++ [Effect.backendCall]⟩
    | some (Except.error e) => ⟨store2, ExecResult.failed e, pre ++ [Effect.backendCall]⟩
    | some (Except.ok reply) =>
      match env.sendResult with
      | none => ⟨store2, ExecResult.failed "send_message", pre ++ [Effect.backendCall]⟩
      | some rid =>
        if env.typingStopOk then
          ⟨storeInsertEvents store2 (env.botId, env.roomId) [ev.eventId, rid],
            ExecResult.replied reply,
            pre ++ [Effect.backendCall, Effect.sentMessage rid,
              Effect.storeInsert [ev.eventId, rid], Effect.typing false]⟩
        else
          ⟨storeInsertEvents store2 (env.botId, env.roomId) [ev.eventId, rid],
            ExecResult.failed "send_typing",
            pre ++ [Effect.backendCall, Effect.sentMessage rid,
              Effect.storeInsert [ev.eventId, rid]]⟩

/-- The backfill step of a turn: when the materialized history is empty
and the room is direct, the scanned and reversed pairs wholly replace the
stored anchor list before the backend call; otherwise the turn proceeds
directly. -/
def conversationTurn (env : Env) (store1 : Store) (emptyHist : Bool)
    (ev : MsgEventIn) : HandlerOut :=
  if emptyHist && env.isDirect then
    turnWithBackend env
      (storeSetList store1 (env.botId, env.roomId)
        ((backfillPairs env.botId env.history).map Prod.fst))
      [Effect.receipt, Effect.typing true,
        Effect.storeSet ((backfillPairs env.botId env.history).map Prod.fst)] ev
  else
    turnWithBackend env store1 [Effect.receipt, Effect.typing true] ev

/-- on_room_message (src/main.rs): ignore own messages; fail when the
room is missing; ignore group messages whose mentions list omits the bot;
fail when the device is missing or the receipt fails; a command short
circuits, Reset clearing the stored anchor list; otherwise signal typing,
materialize the conversation from the store (lazily creating its entry),
backfill when empty and direct, then run the backend turn. -/
def onRoomMessage (env : Env) (store : Store) (ev : MsgEventIn) : HandlerOut :=
  if ev.sender = env.botId then ⟨store, ExecResult.ignoredOwnMessage, []⟩
  else if !env.roomFound then ⟨store, ExecResult.failed "Room not found", []⟩
  else if mentionGuard env ev then ⟨store, ExecResult.ignoredNotMentioned, []⟩
  else if !env.deviceFound then ⟨store, ExecResult.failed "Device not found", []⟩
  else if !env.receiptOk then ⟨store, ExecResult.failed "send_receipt", []⟩
  else
    match Command.parse ev.body with
    | some Command.reset =>
        ⟨storeClear store (env.botId, env.roomId), ExecResult.commandHandled,
          [Effect.receipt, Effect.storeCleared]⟩
    | some _ => ⟨store, ExecResult.commandHandled, [Effect.receipt]⟩
    | none =>
      if !env.typingOk then ⟨store, ExecResult.failed "send_typing", [Effect.receipt]⟩
      else
        match fetchStored env (getOrCreate store (env.botId, env.roomId)).2 with
        | none =>
            ⟨(getOrCreate store (env.botId, env.roomId)).1,
              ExecResult.failed "get_conversation", [Effect.receipt, Effect.typing true]⟩
        | some evs =>
            conversationTurn env (getOrCreate store (env.botId, env.roomId)).1
              ((evs.map (createMessage env.botId)).isEmpty) ev

/-- A scan step at an event that is skipped. -/
theorem backfillScan_cons_none (botId : String) (e : RawEvent) (rest : List RawEvent)
    (h : processRawEvent botId e = Except.ok none) :
    backfillScan botId (e :: rest) = backfillScan botId rest := by
  simp [backfillScan, h]

/-- A scan step at an event that is retained. -/
theorem backfillScan_cons_cont (botId : String) (e : RawEvent) (rest : List RawEvent)
    (id : String) (m : OpenAIMessage)
    (h : processRawEvent botId e = Except.ok (some (Processed.cont id m))) :
    backfillScan botId (e :: rest) = (id, m) :: backfillScan botId rest := by
  simp [backfillScan, h]

/-- The scan returns nothing from a history headed by a boundary event. -/
theorem backfillScan_boundary_head (botId : String) (e : RawEvent) (rest : List RawEvent)
    (h : isBoundary botId e = true) :
    backfillScan botId (e :: rest) = [] := by
  unfold isBoundary at h
  cases hp : processRawEvent botId e with
  | error msg => simp [backfillScan, hp]
  | ok o =>
    rw [hp] at h
    match o with
    | none => simp at h
    | some (Processed.cont id m) => simp at h
    | some Processed.stop => simp [backfillScan, hp]

/-- The scan distributes over an append whose first part holds no
boundary event. -/
theorem backfillScan_append (botId : String) (pre rest : List RawEvent)
    (hpre : pre.all (fun x => !(isBoundary botId x)) = true) :
    backfillScan botId (pre ++ rest)
      = backfillScan botId pre ++ backfillScan botId rest := by
  induction pre with
  | nil => simp [backfillScan]
  | cons x xs ih =>
    simp only [List.all_cons, Bool.and_eq_true, Bool.not_eq_true'] at hpre
    obtain ⟨hx, hxs⟩ := hpre
    cases hp : processRawEvent botId x with
    | error msg => simp [isBoundary, hp] at hx
    | ok o =>
      match o with
      | none => simp [backfillScan, hp, ih hxs]
      | some (Processed.cont id m) => simp [backfillScan, hp, ih hxs]
      | some Processed.stop => simp [isBoundary, hp] at hx

/-- Histories with scan-equal tails scan equally under any common front
part. -/
theorem backfillScan_congr_tail (botId : String) (xs : List RawEvent)
    {ys zs : List RawEvent}
    (h : backfillScan botId ys = backfillScan botId zs) :
    backfillScan botId (xs ++ ys) = backfillScan botId (xs ++ zs) := by
  induction xs with
  | nil => simpa using h
  | cons x xt ih =>
    cases hp : processRawEvent botId x with
    | error msg => simp [backfillScan, hp]
    | ok o =>
      match o with
      | none => simp [backfillScan, hp, ih]
      | some (Processed.cont id m) => simp [backfillScan, hp, ih]
      | some Processed.stop => simp [backfillScan, hp]

/-- The scanned pairs are an initial segment of the Continue
classifications taken in discovery order. -/
theorem backfillScan_initial (botId : String) (h : List RawEvent) :
    ∃ t, backfillScan botId h ++ t = continuePairs botId h := by
  induction h with
  | nil => exact ⟨[], rfl⟩
  | cons e rest ih =>
    obtain ⟨t, ht⟩ := ih
    cases hp : processRawEvent botId e with
    | error msg =>
      exact ⟨continuePairs botId rest, by simp [backfillScan, continuePairs, hp]⟩
    | ok o =>
      match o with
      | none =>
        exact ⟨t, by
          rw [backfillScan_cons_none botId e rest hp]
          simp only [continuePairs, List.filterMap_cons, hp]
          exact ht⟩
      | some (Processed.cont id m) =>
        exact ⟨t, by
          rw [backfillScan_cons_cont botId e rest id m hp]
          simp only [continuePairs, List.filterMap_cons, hp, List.cons_append]
          exact congrArg _ ht⟩
      | some Processed.stop =>
        exact ⟨continuePairs botId rest, by simp [backfillScan, continuePairs, hp]⟩

/-- C1 (amended): the backward scan terminates at the first event that
yields Stop or a fatal processing failure (stream error, typed decode
failure, decryption failure); no (anchor, turn) pair originating at or
before that boundary event appears in the backfill output, even if an
older event would have yielded Continue. -/
theorem backfill_stops_at_boundary (botId : String) (pre post : List RawEvent)
    (e : RawEvent)
    (hpre : pre.all (fun x => !(isBoundary botId x)) = true)
    (he : isBoundary botId e = true) :
    backfillPairs botId (pre ++ e :: post) = backfillPairs botId pre := by
  unfold backfillPairs
  rw [backfillScan_append botId pre (e :: post) hpre,
    backfillScan_boundary_head botId e post he]
  simp

/-- Witness for backfill_stops_at_boundary at a concrete history: one
retained message, a membership-left boundary, one older message. -/
theorem backfill_stops_at_boundary_witness :
    ([RawEvent.message ⟨"@alice:hs", "$new1", "hi".toList⟩].all
        (fun x => !(isBoundary "@bot:hs" x)) = true) ∧
    isBoundary "@bot:hs" (RawEvent.member true) = true ∧
    backfillPairs "@bot:hs"
        ([RawEvent.message ⟨"@alice:hs", "$new1", "hi".toList⟩] ++
          RawEvent.member true :: [RawEvent.message ⟨"@alice:hs", "$old9", "yo".toList⟩])
      = backfillPairs "@bot:hs" [RawEvent.message ⟨"@alice:hs", "$new1", "hi".toList⟩] :=
  ⟨by decide, by decide,
    backfill_stops_at_boundary "@bot:hs" _ _ _ (by decide) (by decide)⟩

/-- C1 counterexample to the claim as stated: the first event of this
history fails to decode (its type tag cannot be extracted), yet the pair
of the strictly older message event still appears in the backfill output,
because a type-extraction failure is skipped rather than treated as the
scan boundary. -/
theorem backfill_includes_older_than_extraction_failure :
    failsToDecode RawEvent.malformed = true ∧
    (backfillPairs "@bot:hs"
        [RawEvent.malformed,
          RawEvent.message ⟨"@alice:hs", "$good", "hi".toList⟩]).map Prod.fst
      = ["$good"] := ⟨rfl, rfl⟩

/-- C2 (amended): during backfill, a failure to extract the type tag of a
historical event is non-fatal at every position, the event being skipped
and the scan continuing; but a failure to decode a type-tagged message
payload or to decrypt an encrypted event terminates the scan at that
event, so that nothing older contributes. -/
theorem backfill_decode_failure_policy (botId : String) :
    (∀ xs ys, backfillScan botId (xs ++ RawEvent.malformed :: ys)
        = backfillScan botId (xs ++ ys)) ∧
    (∀ xs ys, backfillScan botId (xs ++ RawEvent.messageUndecodable :: ys)
        = backfillScan botId (xs ++ [RawEvent.messageUndecodable])) ∧
    (∀ xs ys, backfillScan botId (xs ++ RawEvent.encryptedFailing :: ys)
        = backfillScan botId (xs ++ [RawEvent.encryptedFailing])) := by
  refine ⟨?_, ?_, ?_⟩ <;> intro xs ys <;> apply backfillScan_congr_tail
  · simp [backfillScan, processRawEvent]
  · simp [backfillScan, processRawEvent]
  · simp [backfillScan, processRawEvent]

/-- C2 counterexample to the claim as stated: a message event whose
payload fails typed decoding terminates the scan instead of being skipped,
so the older well-formed message is not reconstructed, although the same
older message alone is. -/
theorem backfill_terminates_on_typed_decode_failure :
    backfillPairs "@bot:hs"
        [RawEvent.messageUndecodable,
          RawEvent.message ⟨"@alice:hs", "$good", "hi".toList⟩] = [] ∧
    (backfillPairs "@bot:hs"
        [RawEvent.message ⟨"@alice:hs", "$good", "hi".toList⟩]).map Prod.fst
      = ["$good"] := ⟨rfl, rfl⟩

/-- C3: the backfill output is the reversal of the scanned pairs, which
are discovered newest first; the scanned pairs are an initial segment of
the newest-first Continue classifications, hence the output is a final
segment of the oldest-first (chronological) pair list. -/
theorem backfill_reverses_to_oldest_first (botId : String) (h : List RawEvent) :
    backfillPairs botId h = (backfillScan botId h).reverse ∧
    (∃ t, backfillScan botId h ++ t = continuePairs botId h) ∧
    (∃ t, t ++ backfillPairs botId h = (continuePairs botId h).reverse) := by
  refine ⟨rfl, backfillScan_initial botId h, ?_⟩
  obtain ⟨t, ht⟩ := backfillScan_initial botId h
  exact ⟨t.reverse, by rw [← ht]; simp [backfillPairs]⟩

/-- A successful error-propagating map preserves length. -/
theorem mapExcept_ok_length (f : α → Except ε β) (as : List α) :
    ∀ bs, mapExcept f as = Except.ok bs → bs.length = as.length := by
  induction as with
  | nil =>
    intro bs h
    simp only [mapExcept, Except.ok.injEq] at h
    subst h; rfl
  | cons a rest ih =>
    intro bs h
    simp only [mapExcept] at h
    cases hf : f a with
    | error e => rw [hf] at h; simp at h
    | ok b =>
      rw [hf] at h
      cases hm : mapExcept f rest with
      | error e => rw [hm] at h; simp at h
      | ok bs2 =>
        rw [hm] at h
        simp only [Except.ok.injEq] at h
        subst h
        simp [ih bs2 hm]

/-- A concrete well-formed tool call for the fetch_url tool. -/
def tcFetch : ToolCall :=
  ⟨"call_1", "function",
    ⟨"fetch_url", some (Json.object [("url", Json.string "https://x")])⟩⟩

/-- C4 (amended): on a message whose content is text and whose tool-call
records all parse, into_actions returns exactly one Reply followed by
exactly one ToolCall per record, in order; on a message whose content is
absent or an image list, into_actions is the error "unknown type"
regardless of any tool-call records. -/
theorem into_actions_shape :
    (∀ (role : String) (body : List Char) (calls : List ToolCall) (ts : List Tool),
        mapExcept toolTryFrom calls = Except.ok ts →
        intoActions ⟨role, some (MessageContent.text body), calls⟩
            = Except.ok (AssistantAction.reply body :: ts.map AssistantAction.toolCall) ∧
          ts.length = calls.length) ∧
    (∀ (role : String) (calls : List ToolCall),
        intoActions ⟨role, none, calls⟩ = Except.error "unknown type") ∧
    (∀ (role : String) (imgs : List OpenAIImageContent) (calls : List ToolCall),
        intoActions ⟨role, some (MessageContent.images imgs), calls⟩
          = Except.error "unknown type") := by
  refine ⟨?_, fun _ _ => rfl, fun _ _ _ => rfl⟩
  intro role body calls ts h
  exact ⟨by simp [intoActions, h], mapExcept_ok_length toolTryFrom calls ts h⟩

/-- Witness for into_actions_shape at a concrete message carrying text
and one valid tool call. -/
theorem into_actions_shape_witness :
    mapExcept toolTryFrom [tcFetch] = Except.ok [Tool.fetchUrl "https://x"] ∧
    intoActions ⟨"assistant", some (MessageContent.text ("hi".toList)), [tcFetch]⟩
      = Except.ok [AssistantAction.reply ("hi".toList),
          AssistantAction.toolCall (Tool.fetchUrl "https://x")] :=
  ⟨rfl,
    (into_actions_shape.1 "assistant" ("hi".toList) [tcFetch]
      [Tool.fetchUrl "https://x"] rfl).1⟩

/-- C4 counterexample to the claim as stated: a message with one valid
tool-call record but with absent content does not yield one ToolCall
action; because only a text content reaches the tool-call loop,
into_actions rejects the whole message as "unknown type". -/
theorem into_actions_rejects_missing_text :
    toolTryFrom tcFetch = Except.ok (Tool.fetchUrl "https://x") ∧
    intoActions ⟨"assistant", none, [tcFetch]⟩ = Except.error "unknown type" :=
  ⟨rfl, rfl⟩

/-- C5: on a response whose choices list is empty, the response
interpretation of send_prompt panics (the none outcome models the unwrap
of choices.first() on an empty list) instead of returning the hard error
the specification requires; and only the first choice of a response is
ever consulted. -/
theorem send_prompt_first_choice_unwrap :
    interpretResponse ⟨"chat.completion", 0, "gpt-4o", []⟩ = none ∧
    (∀ (o : String) (c : Nat) (m : String) (ch : OpenAIChoice)
        (rest : List OpenAIChoice),
        interpretResponse ⟨o, c, m, ch :: rest⟩ = interpretResponse ⟨o, c, m, [ch]⟩) :=
  ⟨rfl, fun _ _ _ _ _ => rfl⟩

/-- C9: parsing a backend-issued tool-call record succeeds exactly when
the declared name matches the known tool variant fetch_url and the
serialized arguments text parses to a value carrying a string field url,
that is, decodes against the parameter shape of that variant; an unknown
name or a shape mismatch is a decoding error. -/
theorem tool_parse_ok_iff (tc : ToolCall) :
    (∃ t, toolTryFrom tc = Except.ok t) ↔
      (tc.function.name = "fetch_url" ∧
        ∃ v u, tc.function.argumentsText = some v ∧
          Json.lookupField v "url" = some (Json.string u)) := by
  unfold toolTryFrom
  cases hargs : tc.function.argumentsText with
  | none => simp
  | some v =>
    by_cases hname : tc.function.name = "fetch_url"
    · cases hl : v.lookupField "url" with
      | none => simp [decodeTool, hname, hl]
      | some j => cases j <;> simp [decodeTool, hname, hl]
    · simp [decodeTool, hname]

/-- Updating an identity makes its stored list the update function
applied to the previous list, the empty list when the identity was
unseen. -/
theorem storeGet_update_self (s : Store) (key : Identity)
    (f : List String → List String) :
    storeGet (storeUpdate s key f) key = some (f ((storeGet s key).getD [])) := by
  induction s with
  | nil => simp [storeUpdate, storeGet]
  | cons kv rest ih =>
    obtain ⟨k, v⟩ := kv
    by_cases hk : k = key
    · simp [storeUpdate, storeGet, hk]
    · simp [storeUpdate, storeGet, hk, ih]

/-- The backend turn records the anchor-insert effect only when the
reply send succeeded, and then inserts exactly the prompt and response
ids alongside the sent-message effect. -/
theorem turnWithBackend_insert (env : Env) (store2 : Store) (pre : List Effect)
    (ev : MsgEventIn) (ids : List String)
    (hpre : ∀ ids2, Effect.storeInsert ids2 ∉ pre)
    (h : Effect.storeInsert ids ∈ (turnWithBackend env store2 pre ev).trace) :
    ∃ rid, env.sendResult = some rid ∧ ids = [ev.eventId, rid] ∧
      Effect.sentMessage rid ∈ (turnWithBackend env store2 pre ev).trace := by
  cases hb : env.backendResponse with
  | none =>
    simp only [turnWithBackend, hb] at h
    simp at h
    exact absurd h (hpre ids)
  | some resp =>
    cases hi : interpretResponse resp with
    | none =>
      simp only [turnWithBackend, hb, hi] at h
      simp at h
      exact absurd h (hpre ids)
    | some r =>
      cases r with
      | error e =>
        simp only [turnWithBackend, hb, hi] at h
        simp at h
        exact absurd h (hpre ids)
      | ok reply =>
        cases hs : env.sendResult with
        | none =>
          simp only [turnWithBackend, hb, hi, hs] at h
          simp at h
          exact absurd h (hpre ids)
        | some rid =>
          cases hts : env.typingStopOk with
          | false =>
            simp only [turnWithBackend, hb, hi, hs, hts] at h
            simp at h
            rcases h with h | h
            · exact absurd h (hpre ids)
            · refine ⟨rid, rfl, h, ?_⟩
              simp only [turnWithBackend, hb, hi, hs, hts]
              simp
          | true =>
            simp only [turnWithBackend, hb, hi, hs, hts] at h
            simp at h
            rcases h with h | h
            · exact absurd h (hpre ids)
            · refine ⟨rid, rfl, h, ?_⟩
              simp only [turnWithBackend, hb, hi, hs, hts]
              simp

/-- The anchor-insert property lifted over the backfill step of a turn. -/
theorem conversationTurn_insert (env : Env) (store1 : Store) (emptyHist : Bool)
    (ev : MsgEventIn) (ids : List String)
    (h : Effect.storeInsert ids ∈ (conversationTurn env store1 emptyHist ev).trace) :
    ∃ rid, env.sendResult = some rid ∧ ids = [ev.eventId, rid] ∧
      Effect.sentMessage rid ∈ (conversationTurn env store1 emptyHist ev).trace := by
  unfold conversationTurn at h ⊢
  by_cases hc : (emptyHist && env.isDirect) = true
  · rw [if_pos hc] at h ⊢
    exact turnWithBackend_insert env _ _ ev ids (fun ids2 => by simp) h
  · rw [if_neg hc] at h ⊢
    exact turnWithBackend_insert env _ _ ev ids (fun ids2 => by simp) h

/-- C6 (amended): the anchor pair of the current turn is appended to the
store only after the reply send has succeeded: whenever the handler trace
records an anchor insert, the environment supplied a successful send whose
response id, together with the prompt event id, is exactly what was
inserted, and the sent-message effect is in the trace.  A turn failing
before or at the reply send performs no anchor insert, although backfill
may already have replaced the stored list with recovered history and
get_conversation may have created an empty entry. -/
theorem anchor_insert_requires_sent_reply (env : Env) (store : Store)
    (ev : MsgEventIn) (ids : List String)
    (h : Effect.storeInsert ids ∈ (onRoomMessage env store ev).trace) :
    ∃ rid, env.sendResult = some rid ∧ ids = [ev.eventId, rid] ∧
      Effect.sentMessage rid ∈ (onRoomMessage env store ev).trace := by
  unfold onRoomMessage at h ⊢
  by_cases h1 : ev.sender = env.botId
  · rw [if_pos h1] at h; simp at h
  · rw [if_neg h1] at h ⊢
    by_cases h2 : (!env.roomFound) = true
    · rw [if_pos h2] at h; simp at h
    · rw [if_neg h2] at h ⊢
      by_cases h3 : mentionGuard env ev = true
      · rw [if_pos h3] at h; simp at h
      · rw [if_neg h3] at h ⊢
        by_cases h4 : (!env.deviceFound) = true
        · rw [if_pos h4] at h; simp at h
        · rw [if_neg h4] at h ⊢
          by_cases h5 : (!env.receiptOk) = true
          · rw [if_pos h5] at h; simp at h
          · rw [if_neg h5] at h ⊢
            cases hcp : Command.parse ev.body with
            | some c =>
              cases c <;> simp only [hcp] at h <;> simp at h
            | none =>
              simp only [hcp] at h ⊢
              by_cases h6 : (!env.typingOk) = true
              · rw [if_pos h6] at h; simp at h
              · rw [if_neg h6] at h ⊢
                cases hf : fetchStored env
                    (getOrCreate store (env.botId, env.roomId)).2 with
                | none => simp only [hf] at h; simp at h
                | some evs =>
                  simp only [hf] at h ⊢
                  exact conversationTurn_insert env _ _ ev ids h

/-- Environment of a fully successful direct-chat turn. -/
def envTurn : Env :=
  { botId := "@bot:hs", roomId := "!room:hs", roomFound := true, isDirect := true,
    deviceFound := true, receiptOk := true, typingOk := true, typingStopOk := true,
    storedEvents := [], history := [],
    backendResponse := some ⟨"chat.completion", 1, "gpt-4o",
      [⟨0, ⟨"assistant", some (MessageContent.text ("Hi!".toList)), []⟩⟩]⟩,
    sendResult := some "$resp" }

/-- The incoming prompt event of the successful turn. -/
def evTurn : MsgEventIn := ⟨"@alice:hs", "$prompt", "hi".toList, none⟩

/-- Witness for anchor_insert_requires_sent_reply on the successful
concrete turn, whose trace does record an anchor insert. -/
theorem anchor_insert_requires_sent_reply_witness :
    Effect.storeInsert ["$prompt", "$resp"] ∈ (onRoomMessage envTurn [] evTurn).trace ∧
    ∃ rid, envTurn.sendResult = some rid ∧
      ["$prompt", "$resp"] = [evTurn.eventId, rid] ∧
      Effect.sentMessage rid ∈ (onRoomMessage envTurn [] evTurn).trace :=
  ⟨by decide,
    anchor_insert_requires_sent_reply envTurn [] evTurn ["$prompt", "$resp"] (by decide)⟩

/-- Environment of a direct-chat turn whose backend call fails after a
backfill that recovered one historical message. -/
def envFailTurn : Env :=
  { botId := "@bot:hs", roomId := "!room:hs", roomFound := true, isDirect := true,
    deviceFound := true, receiptOk := true, typingOk := true, typingStopOk := true,
    storedEvents := [],
    history := [RawEvent.message ⟨"@alice:hs", "$h1", "hello".toList⟩],
    backendResponse := none, sendResult := none }

/-- Prior store of the failing turn: the identity is known with an empty
anchor list. -/
def storeFail : Store := [(("@bot:hs", "!room:hs"), [])]

/-- The incoming prompt event of the failing turn. -/
def evFail : MsgEventIn := ⟨"@alice:hs", "$p", "hi".toList, none⟩

/-- C6 counterexample to the claim as stated: in a turn that fails at the
completion-backend call, before any reply could be sent, the stored anchor
list of the identity has nevertheless changed from empty to the
backfill-recovered id, because backfill replaces the stored list before
the backend call. -/
theorem store_set_before_reply_failure :
    storeGet storeFail ("@bot:hs", "!room:hs") = some [] ∧
    (onRoomMessage envFailTurn storeFail evFail).result
      = ExecResult.failed "backend transport" ∧
    storeGet (onRoomMessage envFailTurn storeFail evFail).store ("@bot:hs", "!room:hs")
      = some ["$h1"] := by decide

/-- C7: a turn whose body parses as the reset command, reaching the
command branch of the handler, clears the stored anchor list of its
identity to empty whatever it previously held, issues no
completion-backend call, performs no history reconstruction (no store
replacement) and sends no reply. -/
theorem reset_clears_and_skips_backend (env : Env) (store : Store) (ev : MsgEventIn)
    (h1 : ev.sender ≠ env.botId)
    (h2 : env.roomFound = true)
    (h3 : mentionGuard env ev = false)
    (h4 : env.deviceFound = true)
    (h5 : env.receiptOk = true)
    (h6 : Command.parse ev.body = some Command.reset) :
    storeGet (onRoomMessage env store ev).store (env.botId, env.roomId) = some [] ∧
    (onRoomMessage env store ev).result = ExecResult.commandHandled ∧
    Effect.backendCall ∉ (onRoomMessage env store ev).trace ∧
    (∀ ids, Effect.storeSet ids ∉ (onRoomMessage env store ev).trace) ∧
    (∀ rid, Effect.sentMessage rid ∉ (onRoomMessage env store ev).trace) := by
  have hout : onRoomMessage env store ev =
      ⟨storeClear store (env.botId, env.roomId), ExecResult.commandHandled,
        [Effect.receipt, Effect.storeCleared]⟩ := by
    unfold onRoomMessage
    rw [if_neg h1]
    simp [h2, h3, h4, h5, h6]
  rw [hout]
  refine ⟨?_, rfl, by simp, fun ids => by simp, fun rid => by simp⟩
  simpa [storeClear] using storeGet_update_self store (env.botId, env.roomId) (fun _ => [])

/-- Environment of a reset-command turn. -/
def envReset : Env :=
  { botId := "@bot:hs", roomId := "!room:hs", roomFound := true, isDirect := true,
    deviceFound := true, receiptOk := true, typingOk := true, typingStopOk := true,
    storedEvents := [], history := [], backendResponse := none, sendResult := none }

/-- The incoming reset command event. -/
def evReset : MsgEventIn := ⟨"@alice:hs", "$cmd", "!reset".toList, none⟩

/-- Prior store of the reset turn, holding four anchors. -/
def storeReset : Store := [(("@bot:hs", "!room:hs"), ["$a", "$b", "$c", "$d"])]

/-- Witness for reset_clears_and_skips_backend at a concrete reset turn
over a non-empty prior anchor list. -/
theorem reset_clears_and_skips_backend_witness :
    Command.parse ("!reset".toList) = some Command.reset ∧
    storeGet (onRoomMessage envReset storeReset evReset).store ("@bot:hs", "!room:hs")
      = some [] ∧
    (onRoomMessage envReset storeReset evReset).result = ExecResult.commandHandled ∧
    Effect.backendCall ∉ (onRoomMessage envReset storeReset evReset).trace := by
  have h := reset_clears_and_skips_backend envReset storeReset evReset
    (by decide) rfl (by decide) rfl rfl (by decide)
  exact ⟨by decide, h.1, h.2.1, h.2.2.1⟩

/-- Environment of a group-chat (non-direct) turn with a working backend. -/
def envGroup : Env :=
  { botId := "@bot:hs", roomId := "!room:hs", roomFound := true, isDirect := false,
    deviceFound := true, receiptOk := true, typingOk := true, typingStopOk := true,
    storedEvents := [], history := [],
    backendResponse := some ⟨"chat.completion", 1, "gpt-4o",
      [⟨0, ⟨"assistant", some (MessageContent.text ("Hi!".toList)), []⟩⟩]⟩,
    sendResult := some "$r" }

/-- A group-chat message event that carries no mentions list at all. -/
def evGroup : MsgEventIn := ⟨"@alice:hs", "$p", "hi".toList, none⟩

/-- C8: a message in a non-direct room that does not mention the bot
because it carries no mentions list at all is NOT ignored: the handler
proceeds through normal processing, calls the completion backend, sends a
reply and mutates the store, because the let chain of the guard only
ignores events that carry a mentions list omitting the bot.  This
contradicts the stated claim and the stated intent of the source comment
that group chats require explicitly mentioning the bot. -/
theorem group_message_without_mentions_processed :
    envGroup.isDirect = false ∧ evGroup.mentions = none ∧
    (onRoomMessage envGroup [] evGroup).result = ExecResult.replied ("Hi!".toList) ∧
    Effect.backendCall ∈ (onRoomMessage envGroup [] evGroup).trace ∧
    storeGet (onRoomMessage envGroup [] evGroup).store ("@bot:hs", "!room:hs")
      = some ["$p", "$r"] := by decide

/-- The first space-delimited token of a character list: the characters
before the first ASCII space.  This is what the source keyword extraction
computes. -/
def firstSpaceToken (s : List Char) : List Char :=
  s.takeWhile (fun c => c != ' ')

/-- The first whitespace-delimited token of a character list, the reading
used by the claim under scrutiny. -/
def firstWhitespaceToken (s : List Char) : List Char :=
  s.takeWhile (fun c => !(isWs c))

/-- Specification-side mapping from an extracted keyword to the resulting
command: the three known keywords map to their variants and every other
keyword maps to Unknown, never to a parse failure. -/
def keywordToCommand (kw : List Char) : Command :=
  if kw = "reset".toList then Command.reset
  else if kw = "help".toList then Command.help
  else if kw = "version".toList then Command.version
  else Command.unknown kw

/-- The first component of splitn(2, sep) is the run of characters before
the first separator. -/
theorem splitFirst_fst (sep : Char) (s : List Char) :
    (splitFirst sep s).1 = s.takeWhile (fun c => c != sep) := by
  induction s with
  | nil => rfl
  | cons c rest ih =>
    by_cases hc : c = sep
    · subst hc
      simp [splitFirst, List.takeWhile]
    · have hb : (c != sep) = true := bne_iff_ne.mpr hc
      simp [splitFirst, List.takeWhile, hc, ih, hb]

/-- C10 (amended): when the trimmed input starts with the bang prefix,
parsing yields exactly the command determined by the first SPACE-delimited
token after the prefix (the characters before the first ASCII space):
reset, help and version map to their variants and every other token to
Unknown, never a parse failure; when the trimmed input does not start with
the prefix, parsing yields no command. -/
theorem command_parse_space_delimited (input : List Char) :
    (∀ rest, trimChars input = '!' :: rest →
      Command.parse input = some (keywordToCommand (firstSpaceToken rest))) ∧
    ((trimChars input).head? ≠ some '!' → Command.parse input = none) := by
  constructor
  · intro rest hrest
    unfold Command.parse
    rw [hrest]
    have hk : firstSpaceToken rest = (splitFirst ' ' rest).1 := by
      rw [firstSpaceToken, ← splitFirst_fst]
    rw [hk]
    rfl
  · intro hh
    unfold Command.parse
    cases ht : trimChars input with
    | nil => rfl
    | cons c rest =>
      rw [ht] at hh
      simp only [List.head?_cons, ne_eq, Option.some.injEq] at hh
      simp [hh]

/-- Witness for command_parse_space_delimited at the concrete input
"  !version now": the trimmed text starts with the prefix and the first
space-delimited token is the version keyword. -/
theorem command_parse_space_delimited_witness :
    trimChars ("  !version now".toList) = '!' :: ("version now".toList) ∧
    Command.parse ("  !version now".toList)
      = some (keywordToCommand (firstSpaceToken ("version now".toList))) ∧
    keywordToCommand (firstSpaceToken ("version now".toList)) = Command.version :=
  ⟨by decide,
    (command_parse_space_delimited ("  !version now".toList)).1
      ("version now".toList) (by decide),
    by decide⟩

/-- C10 counterexample to the claim as stated: in the input below the
first whitespace-delimited token after the prefix is the keyword help,
because a tab is whitespace, yet parse returns Unknown of the whole
remaining text rather than Help, because the source splits at a literal
space only. -/
theorem command_parse_tab_keyword :
    firstWhitespaceToken ("help\tx".toList) = "help".toList ∧
    Command.parse ("!help\tx".toList) = some (Command.unknown ("help\tx".toList)) :=
  ⟨by decide, by decide⟩

end Bot
